import Mathlib

/-
Verification of the worker-communication / streaming-event pipeline of the
claude_sdk_modal_sandbox repository.

The repository's checked-in sources contain the caller-side consumer of the
event stream (src/frontend/src/hooks/useWebSocket.ts), the session/file hooks
(src/unnamed/part_003 = useSession), and documentation of the file-based
worker protocol (README.md, docs/).  The orchestrator/worker side (Event
Relay, Worker Loop, Dispatcher, Session Resume Store) is described by the
specification but its code is not among the checked-in sources; those parts
are modelled from the spec and marked as such in their doc comments.
-/

namespace ModalBox

/-! ## Event type tags

`src/frontend/src/hooks/useWebSocket.ts` lines 33-34 declare the streaming
event union:

  type: 'sandbox_status' | 'init' | 'text' | 'tool_use' | 'tool_result' |
        'result' | 'done' | 'error' | 'interrupted' | 'stop_acknowledged'
-/

inductive StreamEventType where
  | sandbox_status
  | init
  | text
  | tool_use
  | tool_result
  | result
  | done
  | error
  | interrupted
  | stop_acknowledged
deriving DecidableEq, Repr

def StreamEventType.name : StreamEventType → String
  | .sandbox_status => "sandbox_status"
  | .init => "init"
  | .text => "text"
  | .tool_use => "tool_use"
  | .tool_result => "tool_result"
  | .result => "result"
  | .done => "done"
  | .error => "error"
  | .interrupted => "interrupted"
  | .stop_acknowledged => "stop_acknowledged"

/-- The nine `type` values admitted by the spec's Event-record interface
(spec section 6). -/
def specEventTypeNames : List String :=
  ["init", "text", "tool_use", "tool_result", "result",
   "done", "error", "interrupted", "stop_acknowledged"]

/-- The ten `type` values admitted by the source's `StreamEvent` union
(useWebSocket.ts line 34), in declaration order. -/
def codeEventTypeNames : List String :=
  ["sandbox_status", "init", "text", "tool_use", "tool_result", "result",
   "done", "error", "interrupted", "stop_acknowledged"]

/-- All constructors of `StreamEventType`, in declaration order. -/
def allStreamEventTypes : List StreamEventType :=
  [.sandbox_status, .init, .text, .tool_use, .tool_result, .result,
   .done, .error, .interrupted, .stop_acknowledged]

/-! ## The caller-side message reducer (useWebSocket.ts)

The hook accumulates the assistant message for the current request in three
mutable refs (`accumulatedContentRef`, `toolCallsRef`, `contentBlocksRef`)
plus the `streamingStatus` / `resultMetadata` state; the visible message
mirrors the refs after each event.  We embed that per-request state as
`MsgState` and the `switch (streamEvent.type)` body (lines 254-403) as
`processEvent`.  `crypto.randomUUID()` (used only as a fallback id for a
`tool_use` event that carries no `tool_use_id`) is modelled by a
deterministic fresh-id supply `nextId` threaded through the state. -/

inductive ToolStatus where
  | running
  | completed
  | errored
deriving DecidableEq, Repr

/-- `ToolCall` interface (useWebSocket.ts lines 5-12).  The opaque
`Record<string, unknown>` input is modelled as an association list with
opaque string values. -/
structure ToolCall where
  id : String
  tool : String
  input : List (String × String)
  status : ToolStatus
  result : Option String
  isError : Option Bool
deriving DecidableEq, Repr

/-- `ContentBlock` (useWebSocket.ts lines 15-19): a discriminated record
with `type: 'text' | 'tool_call'` and the corresponding payload. -/
inductive ContentBlock where
  | textBlock (text : String)
  | toolCallBlock (toolCall : ToolCall)
deriving DecidableEq, Repr

/-- `StreamingStatus` (useWebSocket.ts lines 54-58). -/
structure StreamingStatus where
  isActive : Bool
  currentTool : Option String
  toolInput : Option (List (String × String))
deriving DecidableEq, Repr

/-- `ResultMetadata` (useWebSocket.ts lines 61-65). -/
structure ResultMetadata where
  durationMs : Nat
  numTurns : Nat
  totalCostUsd : Option Nat
deriving DecidableEq, Repr

/-- `StreamEvent` (useWebSocket.ts lines 33-51): one record type with a
`type` tag and optional payload fields. -/
structure StreamEvent where
  type : StreamEventType
  content : Option String := none
  tool : Option String := none
  input : Option (List (String × String)) := none
  tool_use_id : Option String := none
  message : Option String := none
  is_new : Option Bool := none
  session_id : Option String := none
  is_error : Option Bool := none
  duration_ms : Option Nat := none
  num_turns : Option Nat := none
  total_cost_usd : Option Nat := none
  reason : Option String := none
deriving DecidableEq, Repr

/-- Per-request accumulation state of the hook: the three refs, the
streaming status, the stored result metadata, and the fresh-id counter
standing in for `crypto.randomUUID()`. -/
structure MsgState where
  content : String
  toolCalls : List ToolCall
  contentBlocks : List ContentBlock
  streamingStatus : StreamingStatus
  resultMetadata : Option ResultMetadata
  nextId : Nat
deriving DecidableEq, Repr

def initialMsgState : MsgState :=
  { content := ""
    toolCalls := []
    contentBlocks := []
    streamingStatus := { isActive := false, currentTool := none, toolInput := none }
    resultMetadata := none
    nextId := 0 }

/-- Deterministic stand-in for `crypto.randomUUID()`. -/
def freshId (n : Nat) : String := "uuid-" ++ toString n

/-- JavaScript `a || b` on an optional string: the fallback fires when the
value is absent or the empty string (both falsy). -/
def jsOrString (v : Option String) (fallback : String) : String :=
  match v with
  | some s => if s = "" then fallback else s
  | none => fallback

/-- JavaScript truthiness of an optional boolean (`streamEvent.is_error ?
'error' : 'completed'`). -/
def jsTruthy (v : Option Bool) : Bool :=
  match v with
  | some b => b
  | none => false

/-- `case 'text'` (lines 255-287): append the (possibly empty) content with
a `"\n\n"` separator when the accumulator is nonempty, push a text block,
clear the current-tool status. -/
def processText (s : MsgState) (e : StreamEvent) : MsgState :=
  let newText := e.content.getD ""
  let newContent := if s.content = "" then newText else s.content ++ "\n\n" ++ newText
  { s with
    content := newContent
    contentBlocks := s.contentBlocks ++ [.textBlock newText]
    streamingStatus := { isActive := true, currentTool := none, toolInput := none } }

/-- `case 'tool_use'` (lines 289-313): create a running tool call (fresh id
when `tool_use_id` is falsy), push it to both `toolCallsRef` and
`contentBlocksRef`, and show the tool in the status. -/
def processToolUse (s : MsgState) (e : StreamEvent) : MsgState :=
  let needFresh := (e.tool_use_id.getD "") = ""
  let tc : ToolCall :=
    { id := if needFresh then freshId s.nextId else e.tool_use_id.getD ""
      tool := jsOrString e.tool "unknown"
      input := e.input.getD []
      status := .running
      result := none
      isError := none }
  { s with
    toolCalls := s.toolCalls ++ [tc]
    contentBlocks := s.contentBlocks ++ [.toolCallBlock tc]
    streamingStatus := { isActive := true, currentTool := e.tool, toolInput := e.input }
    nextId := if needFresh then s.nextId + 1 else s.nextId }

/-- Replace the first tool call whose id matches with the updated value
(`findIndex` + indexed assignment in the source). -/
def setFirstToolCall (tuid : Option String) (upd : ToolCall) :
    List ToolCall → List ToolCall
  | [] => []
  | t :: ts =>
    if tuid = some t.id then upd :: ts else t :: setFirstToolCall tuid upd ts

/-- Replace the first `tool_call` block whose tool call's id matches
(`findIndex` over content blocks + indexed assignment in the source). -/
def setFirstToolBlock (tuid : Option String) (upd : ToolCall) :
    List ContentBlock → List ContentBlock
  | [] => []
  | b :: bs =>
    match b with
    | .toolCallBlock tc =>
      if tuid = some tc.id then .toolCallBlock upd :: bs
      else b :: setFirstToolBlock tuid upd bs
    | .textBlock _ => b :: setFirstToolBlock tuid upd bs

/-- `case 'tool_result'` (lines 315-346): if some tracked tool call has the
event's `tool_use_id`, update its status/result/isError and mirror the
update into its content block; always clear the current-tool status. -/
def processToolResult (s : MsgState) (e : StreamEvent) : MsgState :=
  let cleared : StreamingStatus :=
    { isActive := s.streamingStatus.isActive, currentTool := none, toolInput := none }
  match s.toolCalls.find? (fun t => e.tool_use_id = some t.id) with
  | none => { s with streamingStatus := cleared }
  | some old =>
    let upd : ToolCall :=
      { old with
        status := if jsTruthy e.is_error then .errored else .completed
        result := e.content
        isError := e.is_error }
    { s with
      toolCalls := setFirstToolCall e.tool_use_id upd s.toolCalls
      contentBlocks := setFirstToolBlock e.tool_use_id upd s.contentBlocks
      streamingStatus := cleared }

/-- `case 'interrupted'` (lines 358-382): push a "[Stopped by user]" notice
block (its block text keeps the literal leading separator of the source),
append the notice to the accumulated content, deactivate streaming. -/
def processInterrupted (s : MsgState) : MsgState :=
  let newContent :=
    if s.content = "" then "[Stopped by user]"
    else s.content ++ "\n\n" ++ "[Stopped by user]"
  { s with
    content := newContent
    contentBlocks := s.contentBlocks ++ [.textBlock ("\n\n" ++ "[Stopped by user]")]
    streamingStatus := { isActive := false, currentTool := none, toolInput := none } }

/-- The `switch (streamEvent.type)` body (lines 254-403).  `init` and
`sandbox_status` have no case and fall through untouched;
`stop_acknowledged` only logs. -/
def processEvent (s : MsgState) (e : StreamEvent) : MsgState :=
  match e.type with
  | .text => processText s e
  | .tool_use => processToolUse s e
  | .tool_result => processToolResult s e
  | .result =>
    { s with
      resultMetadata := some
        { durationMs := e.duration_ms.getD 0
          numTurns := e.num_turns.getD 0
          totalCostUsd := e.total_cost_usd } }
  | .interrupted => processInterrupted s
  | .stop_acknowledged => s
  | .error =>
    { s with streamingStatus := { isActive := false, currentTool := none, toolInput := none } }
  | .done =>
    { s with streamingStatus := { isActive := false, currentTool := none, toolInput := none } }
  | .init => s
  | .sandbox_status => s

/-- Run the reducer over a whole received event sequence, starting from the
fresh-message state created on the first stream event. -/
def processEvents (es : List StreamEvent) : MsgState :=
  es.foldl processEvent initialMsgState

/-! ## Specification-side views of the accumulated message (for C8) -/

/-- One step of JavaScript-style accumulation: the separator is inserted
only when the accumulator is a nonempty string. -/
def jsAppendPiece (acc piece : String) : String :=
  if acc = "" then piece else acc ++ "\n\n" ++ piece

/-- JavaScript-style join of the content pieces, as the hook performs it. -/
def jsJoin (ps : List String) : String := ps.foldl jsAppendPiece ""

/-- Plain join by `"\n\n"`, the first piece without a leading separator:
the reading of "joined by \n\n" in the claim. -/
def sepJoin : List String → String
  | [] => ""
  | [p] => p
  | p :: q :: ps => p ++ "\n\n" ++ sepJoin (q :: ps)

/-- The piece an event contributes to the accumulated `content`: a `text`
event contributes its content, an `interrupted` event contributes the
"[Stopped by user]" notice, anything else contributes nothing. -/
def contentPiece (e : StreamEvent) : Option String :=
  match e.type with
  | .text => some (e.content.getD "")
  | .interrupted => some "[Stopped by user]"
  | _ => none

def contentPieces (es : List StreamEvent) : List String :=
  es.filterMap contentPiece

/-- The content fields of the `text` events only (the claim's reading). -/
def textContents (es : List StreamEvent) : List String :=
  es.filterMap (fun e =>
    match e.type with
    | .text => some (e.content.getD "")
    | _ => none)

/-- The identity of a content block, forgetting the mutable completion
state of a tool call (status / result / isError). -/
inductive BlockShape where
  | textS (t : String)
  | toolS (id : String) (tool : String) (input : List (String × String))
deriving DecidableEq, Repr

def ContentBlock.shape : ContentBlock → BlockShape
  | .textBlock t => .textS t
  | .toolCallBlock tc => .toolS tc.id tc.tool tc.input

/-- The tool call held by a `tool_call` block, if any. -/
def blockTool : ContentBlock → Option ToolCall
  | .textBlock _ => none
  | .toolCallBlock tc => some tc

/-- The block(s) an event appends, by shape (0 or 1 of them), given the
fresh-id counter at its arrival. -/
def eventShapes (n : Nat) (e : StreamEvent) : List BlockShape :=
  match e.type with
  | .text => [.textS (e.content.getD "")]
  | .interrupted => [.textS ("\n\n" ++ "[Stopped by user]")]
  | .tool_use =>
    [.toolS (if (e.tool_use_id.getD "") = "" then freshId n else e.tool_use_id.getD "")
            (jsOrString e.tool "unknown") (e.input.getD [])]
  | _ => []

/-- How an event advances the fresh-id counter. -/
def eventNextId (n : Nat) (e : StreamEvent) : Nat :=
  match e.type with
  | .tool_use => if (e.tool_use_id.getD "") = "" then n + 1 else n
  | _ => n

/-- The block shapes an event sequence is expected to produce, in arrival
order. -/
def expectedShapes (n : Nat) : List StreamEvent → List BlockShape
  | [] => []
  | e :: es => eventShapes n e ++ expectedShapes (eventNextId n e) es

/-! ## Lemmas about the reducer -/

theorem processToolResult_content (s : MsgState) (e : StreamEvent) :
    (processToolResult s e).content = s.content := by
  simp only [processToolResult]
  split <;> rfl

theorem processToolResult_nextId (s : MsgState) (e : StreamEvent) :
    (processToolResult s e).nextId = s.nextId := by
  simp only [processToolResult]
  split <;> rfl

/-- Each event transforms the accumulated content exactly by appending its
content piece JavaScript-style (or leaving it alone). -/
theorem processEvent_content (s : MsgState) (e : StreamEvent) :
    (processEvent s e).content =
      (match contentPiece e with
       | some p => jsAppendPiece s.content p
       | none => s.content) := by
  cases htype : e.type <;>
    simp [processEvent, contentPiece, htype, processText, processToolUse,
      processInterrupted, processToolResult_content, jsAppendPiece]

theorem foldl_content (es : List StreamEvent) : ∀ s : MsgState,
    (es.foldl processEvent s).content =
      (contentPieces es).foldl jsAppendPiece s.content := by
  induction es with
  | nil => intro s; rfl
  | cons e es ih =>
    intro s
    rw [List.foldl_cons, ih (processEvent s e), processEvent_content]
    cases hp : contentPiece e <;> simp [contentPieces, List.filterMap_cons, hp]

theorem append_ne_empty_left {a : String} (b : String) (h : a ≠ "") :
    a ++ b ≠ "" := by
  intro hc
  apply h
  have hd : a.data ++ b.data = ([] : List Char) := by
    have := congrArg String.data hc
    simpa using this
  have ha : a.data = [] := (List.append_eq_nil.mp hd).1
  cases a
  simp_all

theorem foldl_jsAppend_nonempty (ps : List String) : ∀ acc : String, acc ≠ "" →
    (∀ p ∈ ps, p ≠ "") → ps.foldl jsAppendPiece acc = sepJoin (acc :: ps) := by
  induction ps with
  | nil => intro acc _ _; rfl
  | cons q ps ih =>
    intro acc hacc hps
    have hstep : jsAppendPiece acc q = acc ++ "\n\n" ++ q := by
      simp [jsAppendPiece, hacc]
    rw [List.foldl_cons, hstep,
      ih (acc ++ "\n\n" ++ q)
        (append_ne_empty_left q (append_ne_empty_left "\n\n" hacc))
        (fun p hp => hps p (by simp [hp]))]
    cases ps with
    | nil => rfl
    | cons r rs => simp [sepJoin, String.append_assoc]

theorem jsJoin_eq_sepJoin (ps : List String) (h : ∀ p ∈ ps, p ≠ "") :
    jsJoin ps = sepJoin ps := by
  cases ps with
  | nil => rfl
  | cons p ps =>
    have hp : jsAppendPiece "" p = p := by simp [jsAppendPiece]
    simp only [jsJoin, List.foldl_cons, hp]
    exact foldl_jsAppend_nonempty ps p (h p (by simp))
      (fun q hq => h q (by simp [hq]))

/-- Updating the first matching tool-call block commutes with projecting
the tool calls out of the block list. -/
theorem filterMap_setFirstToolBlock (tuid : Option String) (upd : ToolCall) :
    ∀ bs : List ContentBlock,
      (setFirstToolBlock tuid upd bs).filterMap blockTool =
        setFirstToolCall tuid upd (bs.filterMap blockTool) := by
  intro bs
  induction bs with
  | nil => rfl
  | cons b bs ih =>
    cases b with
    | textBlock t => simp [setFirstToolBlock, blockTool, List.filterMap_cons, ih]
    | toolCallBlock tc =>
      by_cases h : tuid = some tc.id
      · simp [setFirstToolBlock, blockTool, setFirstToolCall, List.filterMap_cons, h]
      · simp [setFirstToolBlock, blockTool, setFirstToolCall, List.filterMap_cons, h, ih]

/-- Updating the first matching tool-call block with a tool call of the
same identity (same id / tool / input) does not change any block's shape. -/
theorem map_shape_setFirstToolBlock (tuid : Option String) (upd old : ToolCall)
    (hid : upd.id = old.id) (htool : upd.tool = old.tool)
    (hinput : upd.input = old.input) :
    ∀ bs : List ContentBlock,
      (bs.filterMap blockTool).find? (fun t => tuid = some t.id) = some old →
      (setFirstToolBlock tuid upd bs).map ContentBlock.shape =
        bs.map ContentBlock.shape := by
  intro bs
  induction bs with
  | nil => intro _; rfl
  | cons b bs ih =>
    intro hfind
    cases b with
    | textBlock t =>
      have : (bs.filterMap blockTool).find? (fun t => tuid = some t.id) = some old := by
        simpa [blockTool, List.filterMap_cons] using hfind
      simp [setFirstToolBlock, ih this]
    | toolCallBlock tc =>
      by_cases h : tuid = some tc.id
      · have hold : old = tc := by
          have := hfind
          simp [blockTool, List.filterMap_cons, List.find?, h] at this
          exact this.symm
        subst hold
        simp [setFirstToolBlock, h, ContentBlock.shape, hid, htool, hinput]
      · have htail : (bs.filterMap blockTool).find? (fun t => tuid = some t.id) = some old := by
          have := hfind
          simpa [blockTool, List.filterMap_cons, List.find?, h] using this
        simp [setFirstToolBlock, h, ih htail]

/-- The per-request invariant of the hook: the tool calls appearing in the
content blocks, in order, are exactly `toolCallsRef`. -/
def BlocksInv (s : MsgState) : Prop :=
  s.contentBlocks.filterMap blockTool = s.toolCalls

theorem processEvent_inv (s : MsgState) (e : StreamEvent) (hinv : BlocksInv s) :
    BlocksInv (processEvent s e) := by
  unfold BlocksInv at hinv ⊢
  cases htype : e.type <;>
    simp [processEvent, htype, processText, processToolUse, processInterrupted,
      List.filterMap_append, blockTool, hinv]
  case tool_result =>
    simp only [processToolResult]
    split
    · simpa using hinv
    · simp [filterMap_setFirstToolBlock, hinv]

theorem processEvent_nextId (s : MsgState) (e : StreamEvent) :
    (processEvent s e).nextId = eventNextId s.nextId e := by
  cases htype : e.type <;>
    simp [processEvent, eventNextId, htype, processText, processToolUse,
      processInterrupted, processToolResult_nextId]

/-- Each event appends exactly its expected block shapes. -/
theorem processEvent_blocks (s : MsgState) (e : StreamEvent) (hinv : BlocksInv s) :
    (processEvent s e).contentBlocks.map ContentBlock.shape =
      s.contentBlocks.map ContentBlock.shape ++ eventShapes s.nextId e := by
  cases htype : e.type <;>
    simp [processEvent, eventShapes, htype, processText, processToolUse,
      processInterrupted, ContentBlock.shape]
  case tool_result =>
    simp only [processToolResult]
    split
    · simp
    case _ old hfind =>
      have hfind' : (s.contentBlocks.filterMap blockTool).find?
          (fun t => e.tool_use_id = some t.id) = some old := by
        rw [hinv]; exact hfind
      simpa using map_shape_setFirstToolBlock e.tool_use_id
        { old with
          status := if jsTruthy e.is_error then ToolStatus.errored else ToolStatus.completed
          result := e.content
          isError := e.is_error }
        old rfl rfl rfl s.contentBlocks hfind'

theorem foldl_blocks (es : List StreamEvent) : ∀ s : MsgState, BlocksInv s →
    (es.foldl processEvent s).contentBlocks.map ContentBlock.shape =
      s.contentBlocks.map ContentBlock.shape ++ expectedShapes s.nextId es := by
  induction es with
  | nil => intro s _; simp [expectedShapes]
  | cons e es ih =>
    intro s hinv
    rw [List.foldl_cons, ih (processEvent s e) (processEvent_inv s e hinv),
      processEvent_blocks s e hinv, processEvent_nextId]
    simp [expectedShapes]

/-! ## Concrete events for counterexamples and witnesses -/

def textEv (c : String) : StreamEvent := { type := .text, content := some c }

def interruptedEv : StreamEvent :=
  { type := .interrupted, reason := some "user_requested" }

def toolUseEv (id tool : String) (input : List (String × String)) : StreamEvent :=
  { type := .tool_use, tool := some tool, input := some input,
    tool_use_id := some id }

def toolResultEv (id content : String) (isErr : Bool) : StreamEvent :=
  { type := .tool_result, content := some content, tool_use_id := some id,
    is_error := some isErr }

/-! ## Claim C3 -/

/-- C3, counterexample: the source's `StreamEvent` union admits the `type`
value `sandbox_status`, which is not among the nine values the claim
allows, so an event delivered with that type refutes the claim. -/
theorem c3_nine_types_counterexample :
    StreamEventType.name .sandbox_status ∉ specEventTypeNames := by
  decide

/-- C3 (amended): every `type` value admitted by the source's `StreamEvent`
union is one of exactly the ten values {sandbox_status, init, text,
tool_use, tool_result, result, done, error, interrupted,
stop_acknowledged}, and each of the ten is realized. -/
theorem c3_event_types :
    (∀ t : StreamEventType, t.name ∈ codeEventTypeNames) ∧
      allStreamEventTypes.map StreamEventType.name = codeEventTypeNames := by
  refine ⟨fun t => ?_, rfl⟩
  cases t <;> decide

/-! ## Claim C8 -/

/-- C8, counterexample: after receiving just an `interrupted` event, the
message content is "[Stopped by user]", not the `"\n\n"`-join of the `text`
events received so far (which would be empty): the reducer also folds the
interruption notice into `content`. -/
theorem c8_join_counterexample :
    (processEvents [interruptedEv]).content ≠
      sepJoin (textContents [interruptedEv]) := by
  decide

/-- C8 (amended): for every received event sequence, the accumulated
`content` is the fold of the event content pieces — the `content` of each
`text` event plus a "[Stopped by user]" piece per `interrupted` event, in
arrival order — inserting `"\n\n"` before every piece appended to a
nonempty accumulator; whenever all pieces are nonempty this equals the
pieces joined by `"\n\n"` with the first unprefixed.  The `contentBlocks`
hold one block per `text`, `tool_use`, or `interrupted` event, in exactly
arrival order, each retaining the identity (id, tool, input) it had on
arrival. -/
theorem c8_accumulation (es : List StreamEvent) :
    (processEvents es).content = jsJoin (contentPieces es) ∧
      ((∀ p ∈ contentPieces es, p ≠ "") →
        (processEvents es).content = sepJoin (contentPieces es)) ∧
      (processEvents es).contentBlocks.map ContentBlock.shape =
        expectedShapes 0 es := by
  have hcontent : (processEvents es).content = jsJoin (contentPieces es) :=
    foldl_content es initialMsgState
  refine ⟨hcontent, fun h => ?_, ?_⟩
  · rw [hcontent, jsJoin_eq_sepJoin (contentPieces es) h]
  · have := foldl_blocks es initialMsgState rfl
    simpa [initialMsgState] using this

/-- Witness for C8: a concrete run with a text, a tool call, its result,
and an interruption. -/
theorem c8_accumulation_witness :
    (processEvents [textEv "Hello", toolUseEv "t1" "bash" [("cmd", "ls")],
        toolResultEv "t1" "ok" false, interruptedEv]).content =
      sepJoin (contentPieces [textEv "Hello", toolUseEv "t1" "bash" [("cmd", "ls")],
        toolResultEv "t1" "ok" false, interruptedEv]) :=
  (c8_accumulation [textEv "Hello", toolUseEv "t1" "bash" [("cmd", "ls")],
    toolResultEv "t1" "ok" false, interruptedEv]).2.1 (by decide)

/-! ## Claim C9 -/

/-- C9: a `tool_result` event whose `tool_use_id` matches no previously
received tool call leaves the message state unchanged — same accumulated
content, same tool calls (no status/result/isError modified), same content
blocks. -/
theorem c9_unmatched_tool_result (s : MsgState) (e : StreamEvent)
    (htype : e.type = .tool_result)
    (h : ∀ t ∈ s.toolCalls, e.tool_use_id ≠ some t.id) :
    (processEvent s e).content = s.content ∧
      (processEvent s e).toolCalls = s.toolCalls ∧
      (processEvent s e).contentBlocks = s.contentBlocks := by
  have hfind : s.toolCalls.find? (fun t => e.tool_use_id = some t.id) = none := by
    apply List.find?_eq_none.mpr
    intro t ht
    simp [h t ht]
  simp [processEvent, htype, processToolResult, hfind]

/-- Witness for C9: a `tool_result` for id "t2" arriving while only "t1"
is tracked changes nothing in the message. -/
theorem c9_unmatched_tool_result_witness :
    (processEvent (processEvents [textEv "Hello", toolUseEv "t1" "bash" []])
        (toolResultEv "t2" "out" false)).content =
      (processEvents [textEv "Hello", toolUseEv "t1" "bash" []]).content ∧
      (processEvent (processEvents [textEv "Hello", toolUseEv "t1" "bash" []])
        (toolResultEv "t2" "out" false)).toolCalls =
      (processEvents [textEv "Hello", toolUseEv "t1" "bash" []]).toolCalls ∧
      (processEvent (processEvents [textEv "Hello", toolUseEv "t1" "bash" []])
        (toolResultEv "t2" "out" false)).contentBlocks =
      (processEvents [textEv "Hello", toolUseEv "t1" "bash" []]).contentBlocks :=
  c9_unmatched_tool_result (processEvents [textEv "Hello", toolUseEv "t1" "bash" []])
    (toolResultEv "t2" "out" false) rfl (by decide)

/-! ## The caller's outbound channel actions (useWebSocket.ts)

`sendMessage` (lines 486-525) and `stopGeneration` (lines 528-540) both
begin with the guard `if (!wsRef.current || wsRef.current.readyState !==
WebSocket.OPEN) { console.error(...); return }`.  We model `wsRef.current`
as an optional readyState and record each call's observable effects. -/

inductive WsReadyState where
  | connecting
  | opened
  | closing
  | closed
deriving DecidableEq, Repr

/-- `wsRef.current`: `none` models a null ref; otherwise the socket is
modelled by its readyState. -/
structure WsRef where
  current : Option WsReadyState
deriving DecidableEq, Repr

/-- The guard condition: a socket exists and its readyState is OPEN. -/
def wsIsOpen (w : WsRef) : Bool := w.current = some WsReadyState.opened

structure FileMention where
  fileId : String
  fileName : String
deriving DecidableEq, Repr

/-- The payload `{ message, file_ids? }` sent over the socket (lines
518-522). -/
structure ChatPayload where
  message : String
  file_ids : Option (List String)
deriving DecidableEq, Repr

/-- The observable effects of one `sendMessage` call: what (if anything)
was transmitted, whether the user message was appended to the message
list, which error events were delivered into the caller's event stream
(the source delivers none from this function), and what was logged. -/
structure SendOutcome where
  sentPayload : Option ChatPayload
  userMessageAdded : Bool
  streamErrorEvents : List StreamEvent
  consoleError : Option String
deriving DecidableEq, Repr

/-- `file_ids` is attached only when mentions are present and nonempty
(`if (fileMentions && fileMentions.length > 0)`). -/
def mentionFileIds (fm : Option (List FileMention)) : Option (List String) :=
  match fm with
  | some ms => if 0 < ms.length then some (ms.map (fun m => m.fileId)) else none
  | none => none

/-- `sendMessage` (lines 486-525).  When the socket is not open it logs
"WebSocket not connected" and returns; otherwise it appends the user
message and transmits the payload. -/
def sendMessage (w : WsRef) (content : String)
    (fm : Option (List FileMention)) : SendOutcome :=
  if wsIsOpen w = false then
    { sentPayload := none
      userMessageAdded := false
      streamErrorEvents := []
      consoleError := some "WebSocket not connected" }
  else
    { sentPayload := some { message := content, file_ids := mentionFileIds fm }
      userMessageAdded := true
      streamErrorEvents := []
      consoleError := none }

/-- The stop message the hook sends, `JSON.stringify({ type: 'stop' })`,
modelled by the serialized object's key/value pairs. -/
def stopMessagePairs : List (String × String) := [("type", "stop")]

/-- `stopGeneration` (lines 528-540): with an open socket it sends exactly
`{ type: 'stop' }`; otherwise it logs and sends nothing. -/
def stopGeneration (w : WsRef) : Option (List (String × String)) :=
  if wsIsOpen w = false then none else some stopMessagePairs

/-! ## Claim C5 -/

/-- C5, counterexample: the cancellation message the caller issues is
exactly `{ type: 'stop' }` — it carries no `request_id` tag for the
in-flight request, refuting the claim that every caller-issued
cancellation carries one. -/
theorem c5_no_request_id_counterexample :
    stopGeneration ⟨some WsReadyState.opened⟩ = some stopMessagePairs ∧
      stopMessagePairs.lookup "request_id" = none := by
  decide

/-- C5 (amended): a caller-issued cancellation on an open socket sends
exactly the message `{ type: 'stop' }`, which names no request_id; tagging
the Stop Flag with the in-flight request's id is left to the backend (not
part of the checked-in sources). -/
theorem c5_stop_message (w : WsRef) (h : wsIsOpen w = true) :
    stopGeneration w = some stopMessagePairs ∧
      stopMessagePairs.lookup "type" = some "stop" ∧
      stopMessagePairs.lookup "request_id" = none := by
  refine ⟨?_, by decide, by decide⟩
  simp [stopGeneration, h]

/-- Witness for C5: the open-socket case. -/
theorem c5_stop_message_witness :
    stopGeneration ⟨some WsReadyState.opened⟩ = some stopMessagePairs ∧
      stopMessagePairs.lookup "type" = some "stop" ∧
      stopMessagePairs.lookup "request_id" = none :=
  c5_stop_message ⟨some WsReadyState.opened⟩ (by decide)

/-! ## Claim C6 -/

/-- C6, counterexample: calling `sendMessage` with no open socket sends
nothing, delivers no `error` event into the stream (in particular none of
kind dispatch_failed), and does not even append the user message — the
request is dropped with only a console log. -/
theorem c6_silent_drop_counterexample :
    (sendMessage ⟨none⟩ "hi" none).sentPayload = none ∧
      (sendMessage ⟨none⟩ "hi" none).streamErrorEvents = [] ∧
      (sendMessage ⟨none⟩ "hi" none).userMessageAdded = false := by
  decide

/-- C6 (amended): with an open channel `sendMessage` never drops the
request — the payload carrying the content (and the file ids when
mentions are present) is transmitted and the user message is appended;
with no open channel the call returns having sent nothing, delivered no
error event, and added no message, logging "WebSocket not connected". -/
theorem c6_send_behavior (w : WsRef) (content : String)
    (fm : Option (List FileMention)) :
    (wsIsOpen w = true →
      (sendMessage w content fm).sentPayload =
          some { message := content, file_ids := mentionFileIds fm } ∧
        (sendMessage w content fm).userMessageAdded = true) ∧
      (wsIsOpen w = false →
        (sendMessage w content fm).sentPayload = none ∧
          (sendMessage w content fm).streamErrorEvents = [] ∧
          (sendMessage w content fm).userMessageAdded = false ∧
          (sendMessage w content fm).consoleError =
            some "WebSocket not connected") := by
  constructor
  · intro h
    simp [sendMessage, h]
  · intro h
    simp [sendMessage, h]

/-- Witness for C6: both branches at concrete sockets. -/
theorem c6_send_behavior_witness :
    (sendMessage ⟨some WsReadyState.opened⟩ "hi" none).sentPayload =
        some { message := "hi", file_ids := mentionFileIds none } ∧
      (sendMessage ⟨some WsReadyState.opened⟩ "hi" none).userMessageAdded = true :=
  (c6_send_behavior ⟨some WsReadyState.opened⟩ "hi" none).1 (by decide)

/-! ## Claim C10: session file count (useSession, src/unnamed/part_003) -/

/-- File operations of the session hook that touch `file_count`:
`handleUploadFiles` adds `uploaded.length`; `handleDeleteFile` sets
`Math.max(0, session.file_count - 1)`. -/
inductive FileOp where
  | upload (uploadedCount : Nat)
  | deleteOne
deriving DecidableEq, Repr

/-- `file_count` is a JS number, modelled as an integer so the guard in
the delete path is meaningful. -/
def applyFileOp (fc : Int) : FileOp → Int
  | .upload n => fc + n
  | .deleteOne => max 0 (fc - 1)

def runFileOps (fc : Int) (ops : List FileOp) : Int :=
  ops.foldl applyFileOp fc

theorem runFileOps_nonneg (ops : List FileOp) : ∀ fc : Int, 0 ≤ fc →
    0 ≤ runFileOps fc ops := by
  induction ops with
  | nil => intro fc h; simpa [runFileOps] using h
  | cons op ops ih =>
    intro fc h
    have hstep : 0 ≤ applyFileOp fc op := by
      cases op with
      | upload n => simp [applyFileOp]; omega
      | deleteOne => simp [applyFileOp]
    simpa [runFileOps] using ih (applyFileOp fc op) hstep

/-- C10: deleting a file sets `file_count` to `max 0 (file_count - 1)`,
uploading `n` files adds `n`, and from any non-negative starting count
every sequence of upload/delete operations keeps `file_count`
non-negative. -/
theorem c10_file_count_nonneg (fc : Int) (ops : List FileOp) (h : 0 ≤ fc) :
    applyFileOp fc FileOp.deleteOne = max 0 (fc - 1) ∧
      (∀ n : Nat, applyFileOp fc (FileOp.upload n) = fc + n) ∧
      0 ≤ runFileOps fc ops :=
  ⟨rfl, fun _ => rfl, runFileOps_nonneg ops fc h⟩

/-- Witness for C10: three deletes after uploading two files never drive
the count negative. -/
theorem c10_file_count_nonneg_witness :
    0 ≤ runFileOps 0 [FileOp.upload 2, FileOp.deleteOne, FileOp.deleteOne,
      FileOp.deleteOne] :=
  (c10_file_count_nonneg 0 [FileOp.upload 2, FileOp.deleteOne, FileOp.deleteOne,
    FileOp.deleteOne] (by decide)).2.2

/-! ## The worker-side protocol (modelled from the spec)

The Worker Loop, Event Relay, Dispatcher, and Session Resume Store are
described by the specification but their code is not among the checked-in
sources (the README and docs describe the same file protocol:
/tmp/worker_request.json, /tmp/worker_output.jsonl, /tmp/worker_ready). -/

/-- Modelled from the spec: the Event record of the Response Log (spec
sections 3 and 6); the worker/orchestrator code that produces it is not in
the checked-in sources. -/
inductive WEvent where
  | init (is_new : Bool)
  | text (content : String)
  | tool_use (id : String) (tool : String)
  | tool_result (id : String)
  | result (duration_ms : Nat)
  | turn_summary (resume_token : String)
  | done
  | error (kind : String) (message : String)
  | interrupted (reason : String)
  | stop_acknowledged
deriving DecidableEq, Repr

def isDoneEvent : WEvent → Bool
  | .done => true
  | _ => false

/-- The synthetic staleness error the Event Relay emits. -/
def isStallError : WEvent → Bool
  | .error kind _ => kind = "worker_stalled"
  | _ => false

/-- An event on which the Relay terminates the stream to the caller:
`done`, or the synthetic `worker_stalled` error. -/
def isTerminalMarker (e : WEvent) : Bool := isDoneEvent e || isStallError e

/-- Modelled from the spec: the Event Relay (spec section 4.4), whose code
is not in the checked-in sources.  It forwards the Response Log events in
order and terminates the stream upon observing `done`; when the log stops
growing without a `done` (staleness past the idle threshold, here: the log
ends), it emits a synthetic `worker_stalled` error and stops.  The
argument is the whole sequence of events the worker ever appends. -/
def relayStream : List WEvent → List WEvent
  | [] => [.error "worker_stalled" "No log growth within idle threshold"]
  | e :: rest => if isDoneEvent e then [e] else e :: relayStream rest

/-! ## Claim C1 -/

/-- C1: assuming the worker itself never writes the Relay's synthetic
`worker_stalled` error into the log, the stream the Relay delivers for a
dispatched request contains exactly one terminating event and it is the
final element: `done` when the log reaches one (covering the
`interrupted`-then-`done` pair), and the synthetic `worker_stalled` error
when the log stops growing without one. -/
theorem c1_exactly_one_terminal (log : List WEvent)
    (h : ∀ e ∈ log, isStallError e = false) :
    (relayStream log).countP isTerminalMarker = 1 ∧
      ∃ pre t, relayStream log = pre ++ [t] ∧ isTerminalMarker t = true := by
  induction log with
  | nil =>
    refine ⟨by decide, [], .error "worker_stalled" "No log growth within idle threshold",
      rfl, by decide⟩
  | cons e rest ih =>
    by_cases hd : isDoneEvent e = true
    · refine ⟨?_, [], e, by simp [relayStream, hd], by simp [isTerminalMarker, hd]⟩
      simp [relayStream, hd, List.countP_cons, isTerminalMarker]
    · have hstall : isStallError e = false := h e (by simp)
      have hterm : isTerminalMarker e = false := by
        simp [isTerminalMarker, hstall]
        simpa using hd
      obtain ⟨hcount, pre, t, hdecomp, ht⟩ := ih (fun x hx => h x (by simp [hx]))
      refine ⟨?_, e :: pre, t, ?_, ht⟩
      · simp [relayStream, hd, List.countP_cons, hterm, hcount]
      · simp [relayStream, hd, hdecomp]

/-- Witness for C1: a log finishing with `done` yields one terminal
marker, and it is last. -/
theorem c1_exactly_one_terminal_witness :
    (relayStream [WEvent.text "hi", WEvent.done]).countP isTerminalMarker = 1 ∧
      ∃ pre t, relayStream [WEvent.text "hi", WEvent.done] = pre ++ [t] ∧
        isTerminalMarker t = true :=
  c1_exactly_one_terminal [WEvent.text "hi", WEvent.done] (by decide)

/-! ## Claim C2 -/

def isInterruptedEvent : WEvent → Bool
  | .interrupted _ => true
  | _ => false

/-- The suffix of the log after the first `interrupted` event, when one
exists. -/
def afterInterrupt : List WEvent → Option (List WEvent)
  | [] => none
  | e :: es => if isInterruptedEvent e then some es else afterInterrupt es

/-- The prefix of the log before the first `interrupted` event. -/
def beforeInterrupt : List WEvent → List WEvent
  | [] => []
  | e :: es => if isInterruptedEvent e then [] else e :: beforeInterrupt es

/-- Modelled from the spec: the Worker Loop's Busy state (spec section
4.3), whose code is not in the checked-in sources.  The worker streams the
completion service's increments to the log; when the Stop Flag is observed
after `k` increments (`stop = some (k, ack, reason)`) it aborts the call
and appends `interrupted` then `done` (a fast `stop_acknowledged` may have
been appended first); on normal completion (`stop = none`) it appends the
`turn_summary` carrying the resume token, then `done`. -/
def runBusy (incs : List WEvent) (tok : String) :
    Option (Nat × Bool × String) → List WEvent
  | none => incs ++ [.turn_summary tok, .done]
  | some (k, ack, reason) =>
    incs.take k ++ (if ack then [.stop_acknowledged] else []) ++
      [.interrupted reason, .done]

theorem afterInterrupt_append (l rest : List WEvent)
    (h : ∀ e ∈ l, isInterruptedEvent e = false) :
    afterInterrupt (l ++ rest) = afterInterrupt rest := by
  induction l with
  | nil => rfl
  | cons e l ih =>
    have he : isInterruptedEvent e = false := h e (by simp)
    simp [afterInterrupt, he, ih (fun x hx => h x (by simp [hx]))]

theorem beforeInterrupt_append (l rest : List WEvent)
    (h : ∀ e ∈ l, isInterruptedEvent e = false) :
    beforeInterrupt (l ++ rest) = l ++ beforeInterrupt rest := by
  induction l with
  | nil => rfl
  | cons e l ih =>
    have he : isInterruptedEvent e = false := h e (by simp)
    simp [beforeInterrupt, he, ih (fun x hx => h x (by simp [hx]))]

/-- C2: assuming the completion-service increments contain no
`interrupted` event (only the worker appends one), the log the worker
produces for a stopped request has exactly `[done]` after its first
`interrupted` event — no `text` or `tool_use` event for the request
follows `interrupted` before `done`; an uninterrupted run contains no
`interrupted` at all, and the fast `stop_acknowledged` acknowledgment,
when present, appears before the `interrupted` event. -/
theorem c2_no_post_interrupt_content (incs : List WEvent) (tok reason : String)
    (k : Nat) (ack : Bool)
    (h : ∀ e ∈ incs, isInterruptedEvent e = false) :
    afterInterrupt (runBusy incs tok (some (k, ack, reason))) = some [WEvent.done] ∧
      afterInterrupt (runBusy incs tok none) = none ∧
      (ack = true → WEvent.stop_acknowledged ∈
        beforeInterrupt (runBusy incs tok (some (k, ack, reason)))) := by
  have htake : ∀ e ∈ incs.take k, isInterruptedEvent e = false :=
    fun e he => h e (List.take_subset k incs he)
  have hpre : ∀ e ∈ incs.take k ++ (if ack then [WEvent.stop_acknowledged] else []),
      isInterruptedEvent e = false := by
    intro e he
    rcases List.mem_append.mp he with h1 | h2
    · exact htake e h1
    · cases ack <;> simp_all [isInterruptedEvent]
  refine ⟨?_, ?_, ?_⟩
  · show afterInterrupt (incs.take k ++ (if ack then [WEvent.stop_acknowledged] else []) ++
      [WEvent.interrupted reason, WEvent.done]) = some [WEvent.done]
    rw [afterInterrupt_append _ _ hpre]
    simp [afterInterrupt, isInterruptedEvent]
  · show afterInterrupt (incs ++ [WEvent.turn_summary tok, WEvent.done]) = none
    rw [afterInterrupt_append _ _ h]
    simp [afterInterrupt, isInterruptedEvent]
  · intro hack
    subst hack
    show WEvent.stop_acknowledged ∈
      beforeInterrupt (incs.take k ++ (if true then [WEvent.stop_acknowledged] else []) ++
        [WEvent.interrupted reason, WEvent.done])
    rw [beforeInterrupt_append _ _ hpre]
    simp

/-- Witness for C2: two text increments, stopped after the first, with the
fast acknowledgment. -/
theorem c2_no_post_interrupt_content_witness :
    afterInterrupt (runBusy [WEvent.text "a", WEvent.text "b"] "tok"
        (some (1, true, "user"))) = some [WEvent.done] ∧
      afterInterrupt (runBusy [WEvent.text "a", WEvent.text "b"] "tok" none) = none ∧
      (true = true → WEvent.stop_acknowledged ∈
        beforeInterrupt (runBusy [WEvent.text "a", WEvent.text "b"] "tok"
          (some (1, true, "user")))) :=
  c2_no_post_interrupt_content [WEvent.text "a", WEvent.text "b"] "tok" "user" 1 true
    (by decide)

/-! ## Claim C4: the Relay's poll loop over the newline-delimited log -/

/-- Modelled from the spec: the record-by-record reading loop of
`poll_events` (spec section 4.4), whose code is not in the checked-in
sources.  Starting at absolute position `c`, each remaining
newline-delimited record is parsed independently; the loop stops at the
first record that fails to parse, leaving the cursor on its boundary. -/
def pollFrom {E : Type} (parse : String → Option E) :
    List String → Nat → List E × Nat
  | [], c => ([], c)
  | l :: ls, c =>
    match parse l with
    | none => ([], c)
    | some e =>
      let r := pollFrom parse ls (c + 1)
      (e :: r.1, r.2)

/-- Modelled from the spec: `poll_events(cursor) -> (events, new_cursor)`
(spec section 4.4).  Reads only the records appended since `cursor`; the
record parser is a parameter (the concrete format is JSON lines). -/
def poll_events {E : Type} (parse : String → Option E)
    (log : List String) (cursor : Nat) : List E × Nat :=
  pollFrom parse (log.drop cursor) cursor

theorem pollFrom_spec {E : Type} (parse : String → Option E) :
    ∀ (ls : List String) (c : Nat),
      c ≤ (pollFrom parse ls c).2 ∧
        (pollFrom parse ls c).2 ≤ c + ls.length ∧
        (∀ j, j < (pollFrom parse ls c).2 - c →
          (parse (ls.getD j "")).isSome = true) ∧
        ((pollFrom parse ls c).2 - c < ls.length →
          parse (ls.getD ((pollFrom parse ls c).2 - c) "") = none) ∧
        (pollFrom parse ls c).1 =
          (ls.take ((pollFrom parse ls c).2 - c)).filterMap parse := by
  intro ls
  induction ls with
  | nil => intro c; simp [pollFrom]
  | cons l ls ih =>
    intro c
    cases hp : parse l with
    | none =>
      have hred : pollFrom parse (l :: ls) c = ([], c) := by simp [pollFrom, hp]
      rw [hred]
      refine ⟨Nat.le_refl _, by simp, by simp, ?_, by simp⟩
      intro _
      simpa using hp
    | some e =>
      obtain ⟨ih1, ih2, ih3, ih4, ih5⟩ := ih (c + 1)
      have hfst : (pollFrom parse (l :: ls) c).1 = e :: (pollFrom parse ls (c + 1)).1 := by
        simp [pollFrom, hp]
      have hsnd : (pollFrom parse (l :: ls) c).2 = (pollFrom parse ls (c + 1)).2 := by
        simp [pollFrom, hp]
      have hshift : (pollFrom parse ls (c + 1)).2 - c =
          ((pollFrom parse ls (c + 1)).2 - (c + 1)) + 1 := by omega
      refine ⟨?_, ?_, ?_, ?_, ?_⟩
      · rw [hsnd]; omega
      · rw [hsnd]; simp only [List.length_cons]; omega
      · intro j hj
        rw [hsnd, hshift] at hj
        cases j with
        | zero => simp [hp]
        | succ j =>
          have : j < (pollFrom parse ls (c + 1)).2 - (c + 1) := by omega
          simpa using ih3 j this
      · intro hlt
        rw [hsnd, hshift] at hlt ⊢
        simp only [List.length_cons] at hlt
        have : (pollFrom parse ls (c + 1)).2 - (c + 1) < ls.length := by omega
        simpa using ih4 this
      · rw [hfst, hsnd, hshift, ih5]
        simp [List.filterMap_cons, hp]

theorem getD_drop (l : List String) : ∀ (n j : Nat) (d : String),
    (l.drop n).getD j d = l.getD (n + j) d := by
  induction l with
  | nil => intro n j d; simp
  | cons x xs ih =>
    intro n j d
    cases n with
    | zero => simp
    | succ n =>
      have : n + 1 + j = (n + j) + 1 := by omega
      rw [this]
      simp only [List.drop_succ_cons, List.getD_cons_succ]
      exact ih n j d

/-- C4: for every poll, the returned events are exactly the parses of the
consecutively parsable records after the cursor (a malformed record is
never turned into an error), and the new cursor stops exactly on the first
unparsable record's boundary — never past it — so the failed record is the
first one re-read by the next poll. -/
theorem c4_poll_never_skips (E : Type) (parse : String → Option E)
    (log : List String) (cursor : Nat) (h : cursor ≤ log.length) :
    cursor ≤ (poll_events parse log cursor).2 ∧
      (poll_events parse log cursor).2 ≤ log.length ∧
      (∀ j, cursor ≤ j → j < (poll_events parse log cursor).2 →
        (parse (log.getD j "")).isSome = true) ∧
      ((poll_events parse log cursor).2 < log.length →
        parse (log.getD (poll_events parse log cursor).2 "") = none) ∧
      (poll_events parse log cursor).1 =
        ((log.drop cursor).take ((poll_events parse log cursor).2 - cursor)).filterMap
          parse := by
  obtain ⟨h1, h2, h3, h4, h5⟩ := pollFrom_spec parse (log.drop cursor) cursor
  have hlen : (log.drop cursor).length = log.length - cursor := by simp
  simp only [poll_events]
  refine ⟨h1, ?_, ?_, ?_, h5⟩
  · omega
  · intro j hcj hjm
    have := h3 (j - cursor) (by omega)
    rw [getD_drop] at this
    have hcj2 : cursor + (j - cursor) = j := by omega
    rwa [hcj2] at this
  · intro hm
    have hlt : (pollFrom parse (log.drop cursor) cursor).2 - cursor <
        (log.drop cursor).length := by omega
    have := h4 hlt
    rw [getD_drop] at this
    have : parse (log.getD (cursor +
        ((pollFrom parse (log.drop cursor) cursor).2 - cursor)) "") = none := this
    have hc2 : cursor + ((pollFrom parse (log.drop cursor) cursor).2 - cursor) =
        (pollFrom parse (log.drop cursor) cursor).2 := by omega
    rwa [hc2] at this

/-- A concrete record parser for the witness: "bad" stands for a record
read mid-write. -/
def demoParse (s : String) : Option String :=
  if s = "bad" then none else some s

/-- Witness for C4: with records ["a", "b", "bad", "c"] the poll returns
the two parsable records and the cursor stops on the malformed one. -/
theorem c4_poll_never_skips_witness :
    0 ≤ (poll_events demoParse ["a", "b", "bad", "c"] 0).2 ∧
      poll_events demoParse ["a", "b", "bad", "c"] 0 = (["a", "b"], 2) :=
  ⟨(c4_poll_never_skips String demoParse ["a", "b", "bad", "c"] 0 (by decide)).1,
    by decide⟩

/-! ## Claim C7: the Session Resume Store -/

/-- Modelled from the spec: `get(session_id) -> resume_token?` of the
Session Resume Store (spec section 4.6), whose code is not in the
checked-in sources; one row per session. -/
def resumeGet (store : List (String × String)) (sid : String) : Option String :=
  (store.find? (fun p => p.1 = sid)).map (fun p => p.2)

/-- Modelled from the spec: `put(session_id, resume_token)` — updates the
session's row or seeds a new one (one row per session). -/
def resumePut : List (String × String) → String → String → List (String × String)
  | [], sid, tok => [(sid, tok)]
  | p :: ps, sid, tok =>
    if p.1 = sid then (sid, tok) :: ps else p :: resumePut ps sid tok

/-- Modelled from the spec: the Dispatcher reads the store at dispatch;
the produced `init` event's `is_new` is whether no token is stored. -/
def dispatchIsNew (store : List (String × String)) (sid : String) : Bool :=
  (resumeGet store sid).isNone

/-- Modelled from the spec: on completion of a turn, the token carried in
`turn_summary` is written to the store. -/
def completeTurn (store : List (String × String)) (sid tok : String) :
    List (String × String) :=
  resumePut store sid tok

theorem find?_append_or {α : Type} (p : α → Bool) (l₂ : List α) :
    ∀ l₁ : List α, (l₁ ++ l₂).find? p = (l₁.find? p).or (l₂.find? p) := by
  intro l₁
  induction l₁ with
  | nil => simp
  | cons a l ih =>
    by_cases h : p a = true
    · simp [List.find?_cons, h]
    · simp only [List.cons_append, List.find?_cons]
      rw [Bool.eq_false_iff.mpr h]
      simp only [cond_false]
      exact ih

theorem resumeGet_none_iff (store : List (String × String)) (sid : String) :
    resumeGet store sid = none ↔
      store.find? (fun p => p.1 = sid) = none := by
  unfold resumeGet
  cases store.find? (fun p => p.1 = sid) <;> simp

theorem resumeGet_eq_none (store : List (String × String)) (sid : String)
    (h : resumeGet store sid = none) : ∀ p ∈ store, p.1 ≠ sid := by
  intro p hp
  have hfind : store.find? (fun p => p.1 = sid) = none := by
    unfold resumeGet at h
    cases hf : store.find? (fun p => p.1 = sid) with
    | none => rfl
    | some q => rw [hf] at h; simp at h
  have := List.find?_eq_none.mp hfind p hp
  simpa using this

theorem resumePut_of_absent (sid tok : String) :
    ∀ store : List (String × String), (∀ p ∈ store, p.1 ≠ sid) →
      resumePut store sid tok = store ++ [(sid, tok)] := by
  intro store
  induction store with
  | nil => intro _; rfl
  | cons p ps ih =>
    intro h
    have hp : p.1 ≠ sid := h p (by simp)
    simp [resumePut, hp, ih (fun q hq => h q (by simp [hq]))]

/-- C7: a dispatch for a session with a stored token produces
`is_new = false`; a dispatch for a session with no stored token produces
`is_new = true`, and completing that turn persists exactly one new resume
record for the session — the session count goes from zero occurrences to
one, the store grows by one row, the new token is retrievable, and every
other session's record is untouched. -/
theorem c7_resume_correctness (store : List (String × String))
    (sid tokStored tokNew : String) :
    (resumeGet store sid = some tokStored → dispatchIsNew store sid = false) ∧
      (resumeGet store sid = none →
        dispatchIsNew store sid = true ∧
          (completeTurn store sid tokNew).countP (fun p => p.1 = sid) = 1 ∧
          (completeTurn store sid tokNew).length = store.length + 1 ∧
          resumeGet (completeTurn store sid tokNew) sid = some tokNew ∧
          ∀ sid2, sid2 ≠ sid →
            resumeGet (completeTurn store sid tokNew) sid2 = resumeGet store sid2) := by
  constructor
  · intro h
    simp [dispatchIsNew, h]
  · intro h
    have habs : ∀ p ∈ store, p.1 ≠ sid := resumeGet_eq_none store sid h
    have hput : completeTurn store sid tokNew = store ++ [(sid, tokNew)] :=
      resumePut_of_absent sid tokNew store habs
    have hfind : store.find? (fun p => p.1 = sid) = none :=
      (resumeGet_none_iff store sid).mp h
    refine ⟨by simp [dispatchIsNew, h], ?_, ?_, ?_, ?_⟩
    · rw [hput]
      rw [List.countP_append]
      have hzero : store.countP (fun p => decide (p.1 = sid)) = 0 := by
        rw [List.countP_eq_zero]
        intro p hp
        simpa using habs p hp
      simp [hzero]
    · simp [hput]
    · rw [hput]
      unfold resumeGet
      rw [find?_append_or, hfind]
      simp
    · intro sid2 hne
      rw [hput]
      unfold resumeGet
      rw [find?_append_or]
      have : ([((sid, tokNew) : String × String)].find? (fun p => p.1 = sid2)) = none := by
        simp [List.find?_cons, Ne.symm hne]
      rw [this]
      cases store.find? (fun p => p.1 = sid2) <;> simp

/-- Witness for C7: a store holding a token for "s1" — dispatching "s1"
resumes, dispatching "s2" starts fresh and completing the turn seeds
exactly one record for "s2". -/
theorem c7_resume_correctness_witness :
    dispatchIsNew [("s1", "tokA")] "s1" = false ∧
      dispatchIsNew [("s1", "tokA")] "s2" = true ∧
      (completeTurn [("s1", "tokA")] "s2" "tokB").countP (fun p => p.1 = "s2") = 1 ∧
      resumeGet (completeTurn [("s1", "tokA")] "s2" "tokB") "s2" = some "tokB" :=
  ⟨(c7_resume_correctness [("s1", "tokA")] "s1" "tokA" "x").1 (by decide),
    ((c7_resume_correctness [("s1", "tokA")] "s2" "x" "tokB").2 (by decide)).1,
    ((c7_resume_correctness [("s1", "tokA")] "s2" "x" "tokB").2 (by decide)).2.1,
    ((c7_resume_correctness [("s1", "tokA")] "s2" "x" "tokB").2 (by decide)).2.2.2.1⟩

end ModalBox
